import Mathlib

/-!
Verification development for the spider repository.

The definitions below are shallow embeddings of the Python modules
`spider/storage/knowledge_graph.py`, `spider/scanners/inotify_monitor.py`,
`spider/real-time_file_monitor.py` and
`spider/scanners/file_relationship_scanner.py`.

Modelling conventions:
* SQLite tables are lists of row structures kept in rowid order; a fresh
  rowid is the current maximum rowid plus one, computed at the start of the
  statement (observed SQLite behaviour for `INSERT OR REPLACE` on a table
  with an `INTEGER PRIMARY KEY` rowid alias).
* `INSERT OR REPLACE` into `files` deletes the row that conflicts on the
  `path UNIQUE` constraint and inserts a fresh row.  Because the connection
  runs with `PRAGMA foreign_keys = ON` and `relationships` carries immediate
  foreign keys into `files`, the implicit delete of a row that is referenced
  by a relationship row fails the statement with a foreign-key violation
  (observed SQLite behaviour).  The statement then commits nothing.
* Each Python statement is followed by `conn.commit()`, so every operation
  below returns the committed database state, including the state committed
  before a failing statement.
* `datetime.now()` is modelled by an explicit integer time parameter;
  ISO timestamp strings are modelled as integers with the same ordering.
* SQL `REAL` values (relationship strength) are modelled as rationals.
* JSON serialisation of the opaque `metadata` bag is elided: the bag is an
  opaque `Option String` stored verbatim.
-/

set_option autoImplicit false

namespace Spider

/-! ## Knowledge store: `spider/storage/knowledge_graph.py`

Schema (lines 36-82): tables `files`, `relationships`, `system_snapshots`,
`file_changes`.  `files.path` is `UNIQUE`; `relationships` has *no*
uniqueness constraint beyond its rowid. -/

/-- A row of the `files` table. -/
structure FileRow where
  id : Nat
  path : String
  file_type : String
  size : Option Int
  modified_time : Option Int
  created_time : Int
  content_hash : Option String
deriving Repr, DecidableEq

/-- A row of the `relationships` table. -/
structure RelRow where
  id : Nat
  source_file_id : Nat
  target_file_id : Nat
  relationship_type : String
  strength : Rat
  metadata : Option String
  discovered_time : Int
deriving Repr, DecidableEq

/-- A row of the `file_changes` table. -/
structure ChangeRow where
  id : Nat
  file_id : Nat
  change_type : String
  old_value : Option String
  new_value : Option String
  timestamp : Int
deriving Repr, DecidableEq

/-- The committed database state (the tables the analysed claims touch). -/
structure DB where
  files : List FileRow
  rels : List RelRow
  changes : List ChangeRow
deriving Repr, DecidableEq

def emptyDB : DB := ⟨[], [], []⟩

/-- Errors a single SQL statement can raise in the modelled fragment. -/
inductive SqlError where
  | fkViolation
deriving Repr, DecidableEq

instance {ε α : Type} [DecidableEq ε] [DecidableEq α] : DecidableEq (Except ε α) := fun a b =>
  match a, b with
  | .error x, .error y =>
      if h : x = y then .isTrue (by rw [h]) else .isFalse (by simp [h])
  | .ok x, .ok y =>
      if h : x = y then .isTrue (by rw [h]) else .isFalse (by simp [h])
  | .error _, .ok _ => .isFalse (by simp)
  | .ok _, .error _ => .isFalse (by simp)

/-- Largest rowid currently in `files` (0 when empty; SQLite then hands out 1). -/
def maxFileId (db : DB) : Nat := db.files.foldl (fun m r => max m r.id) 0

/-- Largest rowid currently in `relationships`. -/
def maxRelId (db : DB) : Nat := db.rels.foldl (fun m r => max m r.id) 0

/-- `pathlib.Path(p).name`: the final path component (trailing slashes are
dropped by `pathlib` normalisation). -/
def pyName (p : String) : String :=
  let cs := (p.toList.reverse.dropWhile (fun c => c == '/')).reverse
  String.mk (cs.foldl (fun acc c => if c == '/' then [] else acc ++ [c]) [])

/-- `pathlib.Path(p).suffix`: the extension of the final component,
including the leading dot, empty when there is none. -/
def pySuffix (p : String) : String :=
  let name := (pyName p).toList
  let i := (List.range name.length).foldl
    (fun acc j => if name.get? j == some '.' then j else acc) 0
  if 0 < i && i < name.length - 1 then String.mk (name.drop i) else ""

/-- `Path(path).suffix.lstrip('.')` from `add_file_record` (line 89). -/
def defaultFileType (p : String) : String :=
  String.mk ((pySuffix p).toList.dropWhile (fun c => c = '.'))

/-- `SELECT id FROM files WHERE path = ?` with `fetchone` (`_get_file_id`,
lines 322-326) resolves a path to the first matching row. -/
def findFile (db : DB) (path : String) : Option FileRow :=
  db.files.find? (fun r => r.path == path)

/-- Is the `files` row with rowid `fid` referenced by any relationship row? -/
def fileReferenced (db : DB) (fid : Nat) : Bool :=
  db.rels.any (fun r => r.source_file_id == fid || r.target_file_id == fid)

/-- `KnowledgeGraphDB.add_file_record` (lines 86-99): `INSERT OR REPLACE INTO
files` followed by `commit`; returns `cursor.lastrowid`.  A conflicting row
that is referenced by a relationship makes the implicit delete fail the
foreign-key check, so the statement raises and commits nothing. -/
def add_file_record (db : DB) (now : Int) (path : String) (file_type : Option String)
    (size : Option Int) (modified_time : Option Int) (content_hash : Option String) :
    Except SqlError (DB × Nat) :=
  let ft := match file_type with
    | some t => t
    | none => defaultFileType path
  let newId := maxFileId db + 1
  let newRow : FileRow := ⟨newId, path, ft, size, modified_time, now, content_hash⟩
  match findFile db path with
  | none => .ok (⟨db.files ++ [newRow], db.rels, db.changes⟩, newId)
  | some old =>
      if fileReferenced db old.id then .error .fkViolation
      else .ok (⟨db.files.filter (fun r => r.id != old.id) ++ [newRow], db.rels, db.changes⟩,
        newId)

/-- `KnowledgeGraphDB.add_file_relationship` (lines 101-117): upsert both
endpoint files (each committing on its own), then `INSERT OR REPLACE INTO
relationships` (no unique constraint, hence a plain insert) and commit.
The edge insert carries its own foreign-key checks: both file ids must still
exist in `files` when it runs.  `source_id` can dangle — when the source and
target paths are equal, the target upsert replaces the row the source upsert
produced and gives it a fresh rowid — and the insert then fails with a
foreign-key violation, committing no edge.  The returned state is the
committed state when the call finishes or raises. -/
def add_file_relationship (db : DB) (now : Int) (source_path target_path rel_type : String)
    (strength : Rat) (metadata : Option String) : DB × Option SqlError :=
  match add_file_record db now source_path none none none none with
  | .error e => (db, some e)
  | .ok (db1, source_id) =>
    match add_file_record db1 now target_path none none none none with
    | .error e => (db1, some e)
    | .ok (db2, target_id) =>
      if db2.files.any (fun f => f.id == source_id)
          && db2.files.any (fun f => f.id == target_id) then
        let relRow : RelRow :=
          ⟨maxRelId db2 + 1, source_id, target_id, rel_type, strength, metadata, now⟩
        (⟨db2.files, db2.rels ++ [relRow], db2.changes⟩, none)
      else (db2, some .fkViolation)

/-- One entry of the `outgoing` list of `get_file_connections`. -/
structure EdgeOut where
  target : String
  rel_type : String
  strength : Rat
  metadata : Option String
deriving Repr, DecidableEq

/-- One entry of the `incoming` list of `get_file_connections`. -/
structure EdgeIn where
  source : String
  rel_type : String
  strength : Rat
  metadata : Option String
deriving Repr, DecidableEq

/-- The dictionary `get_file_connections` builds for a known file. -/
structure Connections where
  file : String
  outgoing : List EdgeOut
  incoming : List EdgeIn
  related_files : List String
deriving Repr, DecidableEq

/-- Result of `get_file_connections`: either the `{'error': ...}` dictionary
or the populated connections dictionary. -/
inductive ConnResult where
  | err (msg : String)
  | ok (c : Connections)
deriving Repr, DecidableEq

/-- Python `set.add` modelled on insertion-ordered duplicate-free lists. -/
def setAdd {α : Type} [BEq α] (l : List α) (a : α) : List α :=
  if l.contains a then l else l ++ [a]

/-- `KnowledgeGraphDB.get_file_connections` (lines 140-189).  The two SQL
joins are modelled as loops over the relationship rows, looking the partner
file row up by rowid; a missing partner row yields no result row, exactly as
an inner join. -/
def get_file_connections (db : DB) (file_path : String) : ConnResult :=
  match findFile db file_path with
  | none => .err "file not found"
  | some row =>
    let fid := row.id
    let outgoing := db.rels.foldl (fun acc r =>
      if r.source_file_id == fid then
        (db.files.find? (fun f => f.id == r.target_file_id)).elim acc
          (fun f => acc ++ [(⟨f.path, r.relationship_type, r.strength, r.metadata⟩ : EdgeOut)])
      else acc) []
    let incoming := db.rels.foldl (fun acc r =>
      if r.target_file_id == fid then
        (db.files.find? (fun f => f.id == r.source_file_id)).elim acc
          (fun f => acc ++ [(⟨f.path, r.relationship_type, r.strength, r.metadata⟩ : EdgeIn)])
      else acc) []
    let related := (outgoing.map (fun e => e.target) ++ incoming.map (fun e => e.source)).foldl
      setAdd []
    .ok ⟨file_path, outgoing, incoming, related⟩

/-- `KnowledgeGraphDB.find_connected_files` (lines 191-216).  An unknown path
returns `[]`.  The join condition pairs every incident relationship row with
both of its endpoint file rows, drops the queried file itself, applies the
`relationship_type IN (...)` filter only when the caller passed a non-empty
list (Python truthiness of `relationship_types`), and deduplicates
(`SELECT DISTINCT`). -/
def find_connected_files (db : DB) (file_path : String)
    (relationship_types : List String) : List String :=
  match findFile db file_path with
  | none => []
  | some row =>
    let fid := row.id
    let raw := db.rels.foldl (fun acc r =>
      if (r.source_file_id == fid || r.target_file_id == fid)
          && (relationship_types.isEmpty || relationship_types.contains r.relationship_type) then
        acc ++ (db.files.filter (fun f =>
          (f.id == r.target_file_id || f.id == r.source_file_id) && f.id != fid)).map
          (fun f => f.path)
      else acc) []
    raw.foldl setAdd []

/-- One entry of the list `get_change_timeline` returns. -/
structure TimelineEntry where
  change_kind : String
  old : Option String
  new : Option String
  time : Int
deriving Repr, DecidableEq

/-- Insertion step of an `ORDER BY timestamp DESC` sort. -/
def insertDescByTime (c : ChangeRow) : List ChangeRow → List ChangeRow
  | [] => [c]
  | x :: xs => if x.timestamp < c.timestamp then c :: x :: xs else x :: insertDescByTime c xs

/-- `ORDER BY timestamp DESC`. -/
def sortDescByTime (l : List ChangeRow) : List ChangeRow := l.foldr insertDescByTime []

/-- `KnowledgeGraphDB.get_change_timeline` (lines 301-320).  An unknown path
returns `[]`; otherwise the `file_changes` rows of the file newer than
`now - days*24*3600` are returned newest first. -/
def get_change_timeline (db : DB) (now : Int) (file_path : String) (days : Int) :
    List TimelineEntry :=
  match findFile db file_path with
  | none => []
  | some row =>
    let cutoff := now - days * 24 * 3600
    let rows := db.changes.filter (fun c => c.file_id == row.id && cutoff < c.timestamp)
    (sortDescByTime rows).map (fun c => ⟨c.change_type, c.old_value, c.new_value, c.timestamp⟩)

/-- Declarative one-hop outgoing edge list of a file id: one entry per
relationship row whose source is the file, joined to the target's path. -/
def outgoingOf (db : DB) (fid : Nat) : List EdgeOut :=
  db.rels.filterMap (fun r =>
    if r.source_file_id == fid then
      (db.files.find? (fun f => f.id == r.target_file_id)).map
        (fun f => (⟨f.path, r.relationship_type, r.strength, r.metadata⟩ : EdgeOut))
    else none)

/-- Declarative one-hop incoming edge list of a file id. -/
def incomingOf (db : DB) (fid : Nat) : List EdgeIn :=
  db.rels.filterMap (fun r =>
    if r.target_file_id == fid then
      (db.files.find? (fun f => f.id == r.source_file_id)).map
        (fun f => (⟨f.path, r.relationship_type, r.strength, r.metadata⟩ : EdgeIn))
    else none)

/-- Committed state after the first successful edge upsert in the C1/C5
scenarios: files `/s` (id 1) and `/t` (id 2) and one `ref` edge of
strength 1 discovered at time 0. -/
def c1db : DB := (add_file_relationship emptyDB 0 "/s" "/t" "ref" 1 none).1

/-- Committed state after `add_file_relationship emptyDB 0 "/x" "/y" "k" 1 none`. -/
def c2db : DB :=
  ⟨[⟨1, "/x", "", none, none, 0, none⟩, ⟨2, "/y", "", none, none, 0, none⟩],
   [⟨1, 1, 2, "k", 1, none, 0⟩], []⟩

/-- Committed state after the source upsert of the failing second call:
the `/c` row is committed even though the call as a whole fails. -/
def c2dbS : DB :=
  ⟨[⟨1, "/x", "", none, none, 0, none⟩, ⟨2, "/y", "", none, none, 0, none⟩,
    ⟨3, "/c", "", none, none, 1, none⟩],
   [⟨1, 1, 2, "k", 1, none, 0⟩], []⟩

/-- Committed state after the source upsert of a self-edge call on an empty
store: one `/s` row with rowid 1. -/
def c2selfDb1 : DB := ⟨[⟨1, "/s", "", none, none, 0, none⟩], [], []⟩

/-- Committed state after the target upsert of the same self-edge call: the
`REPLACE` re-created `/s` with rowid 2, so the source id 1 now dangles. -/
def c2selfDb2 : DB := ⟨[⟨2, "/s", "", none, none, 0, none⟩], [], []⟩

/-- Committed state after `add_file_relationship emptyDB 0 "/s" "/t" "include" 1 none`,
used by the C5 failing input. -/
def c5db : DB := (add_file_relationship emptyDB 0 "/s" "/t" "include" 1 none).1

/-- ASCII bytes of a string literal (embedding device for path constants). -/
def asciiB (s : String) : List Nat := s.data.map (fun c => c.toNat)

/-- Little-endian value of (up to) four bytes, as `struct.unpack` reads an
`I` field on a little-endian host. -/
def le32 (bs : List Nat) : Nat :=
  match bs with
  | [] => 0
  | b :: rest => b + 256 * le32 rest

/-- Two's-complement reading of a 32-bit value, as `struct.unpack` reads the
signed `i` field (the watch descriptor). -/
def toInt32 (n : Nat) : Int :=
  if n < 2 ^ 31 then (n : Int) else (n : Int) - 2 ^ 32

/-- Python `bytes.rstrip(b'\x00')`: drop trailing zero bytes. -/
def rstrip0 (bs : List Nat) : List Nat :=
  (bs.reverse.dropWhile (fun b => b == 0)).reverse

/-- `os.path.join(directory, name)` on POSIX byte strings (47 is the slash). -/
def pyJoinBytes (a b : List Nat) : List Nat :=
  if b.head? == some 47 then b
  else if a.isEmpty || a.getLast? == some 47 then a ++ b
  else a ++ [47] ++ b

/-- `EVENT_NAMES` of `spider/scanners/inotify_monitor.py` (lines 23-29), in
dictionary insertion order: `IN_MODIFY`, `IN_CREATE`, `IN_DELETE`,
`IN_MOVED_TO`, `IN_MOVED_FROM`. -/
def EVENT_NAMES : List (Nat × String) :=
  [(0x00000002, "modified"), (0x00000100, "created"), (0x00000200, "deleted"),
   (0x00000080, "moved_to"), (0x00000040, "moved_from")]

/-- The loop `for event_mask, event_name in EVENT_NAMES.items(): if mask &
event_mask: event_types.append(event_name)` (lines 105-108). -/
def eventTypesOfMask (mask : Nat) : List String :=
  EVENT_NAMES.foldl (fun acc p => if mask &&& p.1 != 0 then acc ++ [p.2] else acc) []

/-- One structured event dictionary built by the decode loop. -/
structure RawEvent where
  timestamp : Int
  path : List Nat
  directory : List Nat
  filename : List Nat
  event_types : List String
deriving Repr, DecidableEq

/-- `self.watches.get(wd, 'unknown')`: watch-descriptor to directory lookup. -/
def lookupWatch (w : List (Int × List Nat)) (wd : Int) : Option (List Nat) :=
  (w.find? (fun p => p.1 == wd)).map (fun p => p.2)

/-- One iteration of the `while i < len(data)` decode loop of
`read_pending_events` (lines 93-122): unpack the 16-byte header
`(wd, mask, cookie, name_len)` from the front of the not-yet-consumed
suffix, read the trailing name, build the event dictionary, and return it
with the remaining suffix.  `none` means fewer than 16 bytes remain, where
`struct.unpack` raises into the enclosing `except Exception`. -/
def decodeOne (watches : List (Int × List Nat)) (now : Int) (rem : List Nat) :
    Option (RawEvent × List Nat) :=
  if (rem.take 16).length = 16 then
    let hdr := rem.take 16
    let wd : Int := toInt32 (le32 (hdr.take 4))
    let mask := le32 ((hdr.drop 4).take 4)
    let name_len := le32 ((hdr.drop 12).take 4)
    let rem1 := rem.drop 16
    let nameBytes := if 0 < name_len then rstrip0 (rem1.take name_len) else []
    let rem2 := rem1.drop name_len
    let directory := (lookupWatch watches wd).getD (asciiB "unknown")
    let full_path := if nameBytes.isEmpty then directory else pyJoinBytes directory nameBytes
    some (⟨now, full_path, directory, nameBytes, eventTypesOfMask mask⟩, rem2)
  else none

/-- The decode loop itself.  The `Bool` result is `false` when the loop was
aborted by the `struct.unpack` exception (a truncated trailing header); the
events decoded before the abort are still produced, because the loop already
appended them to the retained ring.  `fuel` is only a structural-recursion
device: every record consumes at least 16 bytes, so with `fuel ≥ rem.length`
(as `decodeRecords` supplies) the unreachable fuel-exhaustion arm never
fires. -/
def decodeLoop (watches : List (Int × List Nat)) (now : Int) :
    Nat → List Nat → List RawEvent × Bool
  | _, [] => ([], true)
  | 0, _ :: _ => ([], true)
  | fuel + 1, b :: tl =>
    match decodeOne watches now (b :: tl) with
    | some (ev, rem2) =>
      let r := decodeLoop watches now fuel rem2
      (ev :: r.1, r.2)
    | none => ([], false)

/-- The full decode pass of `read_pending_events` over a buffer. -/
def decodeRecords (watches : List (Int × List Nat)) (now : Int) (rem : List Nat) :
    List RawEvent × Bool :=
  decodeLoop watches now rem.length rem

/-- The event a name-length overrun produces: the name is truncated to the
bytes actually present (Python slicing past the end of `data` silently
truncates), and the record is emitted, not skipped. -/
def overrunEvent (watches : List (Int × List Nat)) (hdr rest : List Nat) (now : Int) :
    RawEvent :=
  let directory := (lookupWatch watches (toInt32 (le32 (hdr.take 4)))).getD (asciiB "unknown")
  let nameBytes := rstrip0 rest
  ⟨now, if nameBytes.isEmpty then directory else pyJoinBytes directory nameBytes,
   directory, nameBytes, eventTypesOfMask (le32 ((hdr.drop 4).take 4))⟩

/-- The event one loop iteration builds from a 16-byte header `hdr` whose
trailing bytes are `extra` (the name is cut from the front of `extra`). -/
def decodedEvent (w : List (Int × List Nat)) (now : Int) (hdr extra : List Nat) : RawEvent :=
  let name_len := le32 ((hdr.drop 12).take 4)
  let nameBytes := if 0 < name_len then rstrip0 (extra.take name_len) else []
  let directory := (lookupWatch w (toInt32 (le32 (hdr.take 4)))).getD (asciiB "unknown")
  ⟨now, if nameBytes.isEmpty then directory else pyJoinBytes directory nameBytes,
   directory, nameBytes, eventTypesOfMask (le32 ((hdr.drop 4).take 4))⟩

/-- In-memory state of an `INotifyTracker` (lines 31-37): the inotify file
descriptor (modelled as open/closed), the watch table, the
`deque(maxlen=1000)` ring of retained events and the per-kind counters. -/
structure TrackerState where
  fdOpen : Bool
  watches : List (Int × List Nat)
  events : List RawEvent
  stats : List (String × Nat)
deriving Repr, DecidableEq

/-- `deque(maxlen=1000).append`: keep the most recent 1000 entries. -/
def pushRing (ring : List RawEvent) (e : RawEvent) : List RawEvent :=
  let l := ring ++ [e]
  l.drop (l.length - 1000)

/-- `defaultdict(int)` increment: `self.stats[event_type] += 1`. -/
def bumpCount (l : List (String × Nat)) (k : String) : List (String × Nat) :=
  if l.any (fun p => p.1 == k) then l.map (fun p => if p.1 == k then (p.1, p.2 + 1) else p)
  else l ++ [(k, 1)]

/-- `INotifyTracker.read_pending_events` (lines 80-126).  `self.fd is None`
and a `select` timeout both return `[]`.  Otherwise the buffer returned by
`os.read` is decoded; all decoded events are appended to the retained ring
and counted in the stats (these appends happen inside the loop, so they
survive a decode exception), and the return value is the decoded list, or
`[]` when the loop raised. -/
def read_pending_events (st : TrackerState) (ready : Bool) (data : List Nat) (now : Int) :
    List RawEvent × TrackerState :=
  if !st.fdOpen then ([], st)
  else if !ready then ([], st)
  else
    let res := decodeRecords st.watches now data
    let st' : TrackerState :=
      ⟨st.fdOpen, st.watches, res.1.foldl pushRing st.events,
        res.1.foldl (fun s e => e.event_types.foldl bumpCount s) st.stats⟩
    (if res.2 then res.1 else [], st')

/-- `INotifyTracker.get_recent_events` (lines 128-140): events of the
retained ring whose timestamp is at least `now - minutes*60` (timestamps in
the ring always parse in this model, so the `except: continue` path is
never taken). -/
def get_recent_events (st : TrackerState) (now : Int) (minutes : Int) : List RawEvent :=
  st.events.foldl (fun acc e => if now - minutes * 60 ≤ e.timestamp then acc ++ [e] else acc) []

/-- One entry of the `recent_changes` sample list. -/
structure RecentChange where
  time : Int
  file : List Nat
  changes : List String
deriving Repr, DecidableEq

/-- The summary dictionary built by `FileChangeMonitor.get_change_summary`. -/
structure ChangeSummary where
  period_minutes : Int
  total_events : Nat
  files_changed : List (List Nat)
  directories_affected : List (List Nat)
  event_breakdown : List (String × Nat)
  recent_changes : List RecentChange
deriving Repr, DecidableEq

/-- The per-event body of the aggregation loop of
`FileChangeMonitor.get_change_summary` (lines 187-199): add the event's path
and directory to the two sets (Python sets modelled as insertion-ordered
duplicate-free lists), bump the per-kind counters, and append to the sample
while it holds fewer than 10 entries. -/
def summaryStep (s : ChangeSummary) (e : RawEvent) : ChangeSummary :=
  ⟨s.period_minutes, s.total_events,
    setAdd s.files_changed e.path,
    setAdd s.directories_affected e.directory,
    e.event_types.foldl bumpCount s.event_breakdown,
    if s.recent_changes.length < 10 then
      s.recent_changes ++ [⟨e.timestamp, e.path, e.event_types⟩]
    else s.recent_changes⟩

/-- `FileChangeMonitor.get_change_summary` (lines 175-205): filter the
retained ring to the trailing window, then aggregate. -/
def get_change_summary (st : TrackerState) (now : Int) (minutes : Int) : ChangeSummary :=
  let events := get_recent_events st now minutes
  events.foldl summaryStep ⟨minutes, events.length, [], [], [], []⟩

/-- Environment of OS effects a monitor start touches: whether
`inotify_init` succeeds, which directories exist, and the watch descriptor
(negative = failure) `inotify_add_watch` returns for a directory. -/
structure MonitorEnv where
  initOk : Bool
  dirExists : List Nat → Bool
  addWatchRes : List Nat → Int

/-- Assoc-list store `self.watches[wd] = path`. -/
def dictInsert (w : List (Int × List Nat)) (wd : Int) (path : List Nat) :
    List (Int × List Nat) :=
  if w.any (fun p => p.1 == wd) then w.map (fun p => if p.1 == wd then (wd, path) else p)
  else w ++ [(wd, path)]

/-- `INotifyTracker.initialize_inotify` (lines 39-57): returns `self.fd >= 0`
after opening the channel, `False` when the foreign call fails. -/
def initInotify (env : MonitorEnv) (st : TrackerState) : TrackerState × Bool :=
  if env.initOk then (⟨true, st.watches, st.events, st.stats⟩, true) else (st, false)

/-- `INotifyTracker.add_directory_watch` (lines 59-78): `None` when the
channel is not open or the directory does not exist; otherwise register the
watch when `inotify_add_watch` returns a non-negative descriptor. -/
def add_directory_watch (env : MonitorEnv) (st : TrackerState) (path : List Nat) :
    TrackerState × Option Int :=
  if !st.fdOpen || !env.dirExists path then (st, none)
  else
    let wd := env.addWatchRes path
    if 0 ≤ wd then
      (⟨st.fdOpen, dictInsert st.watches wd path, st.events, st.stats⟩, some wd)
    else (st, none)

/-- A `FileChangeMonitor` (lines 148-152): tracker, configured directories,
`running` flag. -/
structure FCMState where
  tracker : TrackerState
  watch_dirs : List (List Nat)
  running : Bool
deriving Repr, DecidableEq

/-- The `for directory in self.watch_dirs` registration loop of
`FileChangeMonitor.start_monitoring` (lines 158-163), threading the tracker
state and the successful-watch counter. -/
def watchRegLoop (env : MonitorEnv) (dirs : List (List Nat)) (tr : TrackerState) (c : Nat) :
    TrackerState × Nat :=
  match dirs with
  | [] => (tr, c)
  | d :: rest =>
    if env.dirExists d then
      let r := add_directory_watch env tr d
      watchRegLoop env rest r.1 (if (r.2).isSome then c + 1 else c)
    else watchRegLoop env rest tr c

/-- `FileChangeMonitor.start_monitoring` (lines 154-168): fail when the
channel cannot be opened; register a watch for every existing directory;
mark the session running and return `True` only when at least one watch
registered. -/
def start_monitoring (env : MonitorEnv) (m : FCMState) : FCMState × Bool :=
  let ini := initInotify env m.tracker
  if !ini.2 then (⟨ini.1, m.watch_dirs, m.running⟩, false)
  else
    let reg := watchRegLoop env m.watch_dirs ini.1 0
    if 0 < reg.2 then (⟨reg.1, m.watch_dirs, true⟩, true)
    else (⟨reg.1, m.watch_dirs, m.running⟩, false)

/-! ### `spider/real-time_file_monitor.py` (divergent copy)

Only the pieces claim C6 cites: `INotifyMonitor.start_monitoring`,
`INotifyMonitor.add_watch` and `FileChangeTracker.start_tracking`. -/

/-- `INotifyMonitor.start_monitoring` (lines 51-71): open the channel,
return `self.fd >= 0`; the watch table is untouched. -/
def rt_start_monitoring (env : MonitorEnv) (st : TrackerState) : TrackerState × Bool :=
  if env.initOk then (⟨true, st.watches, st.events, st.stats⟩, true) else (st, false)

/-- `INotifyMonitor.add_watch` (lines 73-95): like the scanners variant but
without an existence check (the caller checks). -/
def rt_add_watch (env : MonitorEnv) (st : TrackerState) (path : List Nat) :
    TrackerState × Option Int :=
  if !st.fdOpen then (st, none)
  else
    let wd := env.addWatchRes path
    if 0 ≤ wd then
      (⟨st.fdOpen, dictInsert st.watches wd path, st.events, st.stats⟩, some wd)
    else (st, none)

/-- A `FileChangeTracker` (lines 207-211). -/
structure FCTState where
  monitor : TrackerState
  watch_dirs : List (List Nat)
  running : Bool
deriving Repr, DecidableEq

/-- `FileChangeTracker.start_tracking` (lines 213-226): fail only when the
channel cannot be opened; watches are attempted for existing directories but
their outcome is ignored — the session is marked running and `True` is
returned even when no watch registered. -/
def start_tracking (env : MonitorEnv) (t : FCTState) : FCTState × Bool :=
  let ini := rt_start_monitoring env t.monitor
  if !ini.2 then (⟨ini.1, t.watch_dirs, t.running⟩, false)
  else
    let mon := t.watch_dirs.foldl
      (fun mon d => if env.dirExists d then (rt_add_watch env mon d).1 else mon) ini.1
    (⟨mon, t.watch_dirs, true⟩, true)

/-! ## Relationship extractor: `spider/scanners/file_relationship_scanner.py`

The extractor applies Python `re` patterns to file contents.  The twelve
patterns of the built-in table use only literals, character classes, the
quantifiers `?`, `+`, `*` and `{2,4}` over single-character classes, one
capture group each, and `^` under `re.MULTILINE`.  They are embedded as
token lists interpreted by a backtracking matcher whose candidate order
(greedy, longest first) agrees with the `re` engine on this fragment, and
`findIter` mirrors `re.finditer`: leftmost non-overlapping matches, scanning
resumes at the end of each match. -/

/-- One token of an embedded pattern. -/
inductive RTok where
  | lit (cs : List Char)
  | cls1 (p : Char → Bool)
  | rep (lo : Nat) (hi : Option Nat) (p : Char → Bool)
  | bol
  | gopen
  | gclose

/-- Try continuation `k` on the counts `lo + n`, `lo + n - 1`, ..., `lo`, in
that (greedy) order. -/
def tryDesc {ρ : Type} (k : Nat → Option ρ) (lo : Nat) : Nat → Option ρ
  | 0 => k lo
  | n + 1 =>
    match k (lo + n + 1) with
    | some r => some r
    | none => tryDesc k lo n

/-- Backtracking matcher: match the token list against `s` starting at
position `i`, tracking the capture-group boundaries; returns the end
position and the group span of the first (greedy) match. -/
def mtoks (s : List Char) : List RTok → Nat → Option Nat → Option Nat →
    Option (Nat × Option Nat × Option Nat)
  | [], i, gs, ge => some (i, gs, ge)
  | .lit cs :: rest, i, gs, ge =>
    if (s.drop i).take cs.length = cs then mtoks s rest (i + cs.length) gs ge else none
  | .cls1 p :: rest, i, gs, ge =>
    match (s.drop i).head? with
    | some c => if p c then mtoks s rest (i + 1) gs ge else none
    | none => none
  | .rep lo hi p :: rest, i, gs, ge =>
    let run := ((s.drop i).takeWhile p).length
    let hi' := match hi with
      | none => run
      | some h => min h run
    if hi' < lo then none
    else tryDesc (fun j => mtoks s rest (i + j) gs ge) lo (hi' - lo)
  | .bol :: rest, i, gs, ge =>
    if i = 0 || s.get? (i - 1) == some '\n' then mtoks s rest i gs ge else none
  | .gopen :: rest, i, gs, ge => mtoks s rest i (some i) ge
  | .gclose :: rest, i, gs, ge => mtoks s rest i gs (some i)

/-- A match attempt at one position: end position plus captured group text. -/
def matchAt (toks : List RTok) (s : List Char) (i : Nat) : Option (Nat × List Char) :=
  match mtoks s toks i none none with
  | some (e, some gs, some ge) => some (e, (s.drop gs).take (ge - gs))
  | some (e, _, _) => some (e, [])
  | none => none

/-- `re.finditer` scan: try each position left to right, emit the capture of
each match and resume after it. -/
def findIterAux (toks : List RTok) (s : List Char) : Nat → Nat → List (List Char)
  | 0, _ => []
  | fuel + 1, pos =>
    if pos > s.length then []
    else
      match matchAt toks s pos with
      | some (e, grp) => grp :: findIterAux toks s fuel (max e (pos + 1))
      | none => findIterAux toks s fuel (pos + 1)

def findIter (toks : List RTok) (s : List Char) : List (List Char) :=
  findIterAux toks s (s.length + 1) 0

/-- Python `\s` on ASCII text. -/
def pySpace (c : Char) : Bool :=
  c = ' ' || c = '\t' || c = '\n' || c = '\r' || c = '\x0b' || c = '\x0c'

/-- Double (34) or single (39) quote. -/
def isQuoteCh (c : Char) : Bool := c.toNat = 34 || c.toNat = 39

/-- The class written as not-quote, not-semicolon, not-whitespace. -/
def notDelim (c : Char) : Bool := !(isQuoteCh c || c = ';' || pySpace c)

/-- The class written as not-quote, not-colon, not-whitespace. -/
def notColonDelim (c : Char) : Bool := !(isQuoteCh c || c = ':' || pySpace c)

def notSpace (c : Char) : Bool := !(pySpace c)

def identStart (c : Char) : Bool :=
  ('a' ≤ c && c ≤ 'z') || ('A' ≤ c && c ≤ 'Z') || c = '_'

def identCont (c : Char) : Bool :=
  identStart c || ('0' ≤ c && c ≤ '9') || c = '.'

def lowerAlpha (c : Char) : Bool := 'a' ≤ c && c ≤ 'z'

/-- The shared shape of the four `include`-kind patterns
(`kw \s+ ["']? ([^"';\s]+) ["']?`). -/
def reDirective (kw : String) : List RTok :=
  [.lit kw.data, .rep 1 none pySpace, .rep 0 (some 1) isQuoteCh, .gopen,
   .rep 1 none notDelim, .gclose, .rep 0 (some 1) isQuoteCh]

/-- Pattern `["']([/][^"';\s]+\.[a-z]{2,4})["']`. -/
def rePathExt : List RTok :=
  [.cls1 isQuoteCh, .gopen, .cls1 (fun c => c = '/'), .rep 1 none notDelim,
   .lit ['.'], .rep 2 (some 4) lowerAlpha, .gclose, .cls1 isQuoteCh]

/-- Pattern `["']([/][^"';\s]+\.conf)["']` (and its `.log` sibling). -/
def rePathLit (ext : String) : List RTok :=
  [.cls1 isQuoteCh, .gopen, .cls1 (fun c => c = '/'), .rep 1 none notDelim,
   .lit ext.data, .gclose, .cls1 isQuoteCh]

/-- Pattern `^from\s+([a-zA-Z_][a-zA-Z0-9_\.]*)\s+import`. -/
def rePyFrom : List RTok :=
  [.bol, .lit "from".data, .rep 1 none pySpace, .gopen, .cls1 identStart,
   .rep 0 none identCont, .gclose, .rep 1 none pySpace, .lit "import".data]

/-- Pattern `^import\s+([a-zA-Z_][a-zA-Z0-9_\.]*)`. -/
def rePyImport : List RTok :=
  [.bol, .lit "import".data, .rep 1 none pySpace, .gopen, .cls1 identStart,
   .rep 0 none identCont, .gclose]

/-- Pattern `image:\s*["']?([^"':\s]+:[^"':\s]+)["']?`. -/
def reDockerImage : List RTok :=
  [.lit "image:".data, .rep 0 none pySpace, .rep 0 (some 1) isQuoteCh, .gopen,
   .rep 1 none notColonDelim, .lit [':'], .rep 1 none notColonDelim, .gclose,
   .rep 0 (some 1) isQuoteCh]

/-- Pattern `FROM\s+([^\s]+)`. -/
def reDockerFrom : List RTok :=
  [.lit "FROM".data, .rep 1 none pySpace, .gopen, .rep 1 none notSpace, .gclose]

/-- Pattern `volume:\s*["']?([^"':\s]+)["']?`. -/
def reDockerVolume : List RTok :=
  [.lit "volume:".data, .rep 0 none pySpace, .rep 0 (some 1) isQuoteCh, .gopen,
   .rep 1 none notColonDelim, .gclose, .rep 0 (some 1) isQuoteCh]

/-- `self.patterns` (lines 16-41), in dictionary insertion order. -/
def patternsTable : List (String × List (List RTok)) :=
  [("include", [reDirective "include", reDirective "source", reDirective "@import",
    reDirective "require"]),
   ("path_ref", [rePathExt, rePathLit ".conf", rePathLit ".log"]),
   ("python_import", [rePyFrom, rePyImport]),
   ("docker_ref", [reDockerImage, reDockerFrom, reDockerVolume])]

/-- `os.path.dirname` (posix): everything up to the last slash, stripped of
trailing slashes unless it is all slashes. -/
def pyDirname (p : String) : String :=
  let cs := p.toList
  let i := (List.range cs.length).foldl
    (fun acc j => if cs.get? j == some '/' then j + 1 else acc) 0
  let head := cs.take i
  if head ≠ [] && head.any (fun c => c ≠ '/') then
    String.mk ((head.reverse.dropWhile (fun c => c == '/')).reverse)
  else String.mk head

/-- `os.path.join(a, b)` (posix, two arguments). -/
def pyJoin (a b : String) : String :=
  if b.data.head? == some '/' then b
  else if a.data.isEmpty || a.data.getLast? == some '/' then a ++ b
  else a ++ "/" ++ b

/-- The filesystem effects `scan_directory`/`scan_file_content` touch:
recursive glob results per pattern, the is-file test, stat results, and file
contents (`none` = `open` raises, swallowed by the bare `except`). -/
structure FS where
  glob : String → List String
  isFile : String → Bool
  size : String → Nat
  mtime : String → Int
  content : String → Option String

/-- `refs[pattern_type].add(ref_path)` on the `defaultdict(set)` of
reference maps (sets modelled as insertion-ordered duplicate-free lists). -/
def addRef (refs : List (String × List String)) (ptype : String) (path : String) :
    List (String × List String) :=
  if refs.any (fun q => q.1 == ptype) then
    refs.map (fun q =>
      if q.1 == ptype then (q.1, if q.2.contains path then q.2 else q.2 ++ [path]) else q)
  else refs ++ [(ptype, [path])]

/-- `FileRelationshipScanner.scan_file_content` (lines 43-64): an unreadable
file yields the empty map; otherwise every pattern of every kind is applied
with `finditer`, each captured path resolved against the scanning file's
directory unless absolute, and collected into the per-kind reference sets. -/
def scan_file_content (fs : FS) (filepath : String) : List (String × List String) :=
  match fs.content filepath with
  | none => []
  | some content =>
    patternsTable.foldl (fun refs pt =>
      pt.2.foldl (fun refs pat =>
        (findIter pat content.data).foldl (fun refs grp =>
          let raw := String.mk grp
          let ref_path := if raw.data.head? == some '/' then raw
            else pyJoin (pyDirname filepath) raw
          addRef refs pt.1 ref_path) refs) refs) []

/-- The per-file record stored under `connections`. -/
structure ConnData where
  size : Nat
  modified : Int
  references : List (String × List String)
deriving Repr, DecidableEq

/-- The dictionary `scan_directory` returns. -/
structure ScanResult where
  directory : String
  files_scanned : Nat
  connections : List (String × ConnData)
  file_types : List (String × Nat)
  orphaned_files : List String
deriving Repr, DecidableEq

/-- The extension allow-list (line 80), in order. -/
def scanExtensions : List String :=
  [".conf", ".cfg", ".yml", ".yaml", ".json", ".py", ".sh", ".service"]

/-- File collection loop (lines 80-83): per extension, glob `**/*{ext}` and
keep the first `max_files // 8` results. -/
def collectScanned (fs : FS) (max_files : Nat) : List String :=
  scanExtensions.foldl
    (fun acc ext => acc ++ (fs.glob ("**/*" ++ ext)).take (max_files / 8)) []

/-- `relationships['connections'][file_str] = {...}` dictionary store. -/
def dictInsertConn (conns : List (String × ConnData)) (k : String) (v : ConnData) :
    List (String × ConnData) :=
  if conns.any (fun q => q.1 == k) then conns.map (fun q => if q.1 == k then (k, v) else q)
  else conns ++ [(k, v)]

/-- `filepath.suffix or 'no_extension'` (line 101). -/
def suffixOrNoExt (p : String) : String :=
  if pySuffix p == "" then "no_extension" else pySuffix p

/-- One iteration of the scan loop (lines 86-103) over the state
`(files_scanned, connections, file_types)`: skip non-files, record the
file's size, mtime and reference map when it has at least one discovered
reference, and count its extension. -/
def scanStep (fs : FS) (st : Nat × List (String × ConnData) × List (String × Nat))
    (f : String) : Nat × List (String × ConnData) × List (String × Nat) :=
  if fs.isFile f then
    let file_refs := scan_file_content fs f
    let conns := if file_refs.isEmpty then st.2.1
      else dictInsertConn st.2.1 f ⟨fs.size f, fs.mtime f, file_refs⟩
    (st.1 + 1, conns, bumpCount st.2.2 (suffixOrNoExt f))
  else st

/-- `referenced_files` (lines 106-109): the union of every reference list of
every connection entry. -/
def collectReferenced (conns : List (String × ConnData)) : List String :=
  conns.foldl (fun acc c =>
    c.2.references.foldl (fun acc r => r.2.foldl setAdd acc) acc) []

/-- `FileRelationshipScanner.scan_directory` (lines 66-114).  Note that
`all_files` is built from the full collected list, not the
`[:max_files]` slice actually scanned, exactly as in the source (line 111);
Python's unordered sets are modelled as insertion-ordered duplicate-free
lists, so the 20-element truncation of the orphan sample is taken in
collection order. -/
def scan_directory (fs : FS) (directory : String) (max_files : Nat) : ScanResult :=
  let scanned_files := collectScanned fs max_files
  let res := (scanned_files.take max_files).foldl (scanStep fs) (0, [], [])
  let referenced := collectReferenced res.2.1
  let all_files := scanned_files.foldl setAdd []
  ⟨directory, res.1, res.2.1, res.2.2,
   (all_files.filter (fun f => !referenced.contains f)).take 20⟩

/-- The two-file scenario of the spec: `/d/app.conf` holds one
`include "db.conf"` directive, `/d/db.conf` is empty. -/
def c8fs : FS :=
  ⟨fun pat => if pat == "**/*.conf" then ["/d/app.conf", "/d/db.conf"] else [],
   fun _ => true,
   fun f => if f == "/d/app.conf" then 18 else 5,
   fun _ => 7,
   fun f => if f == "/d/app.conf" then some "include \"db.conf\"\n"
     else if f == "/d/db.conf" then some "" else none⟩

/-! ### Concrete states used by monitor counterexamples and witnesses -/

/-- A well-formed 16-byte inotify record: `wd = 1`, `mask = IN_CREATE`
(0x100), `cookie = 0`, `name_len = 0` (little-endian fields). -/
def c3good : List Nat := [1, 0, 0, 0, 0, 1, 0, 0, 0, 0, 0, 0, 0, 0, 0, 0]

/-- A 16-byte header declaring `mask = IN_MODIFY` and `name_len = 100`,
far beyond any trailing bytes supplied with it. -/
def c3overHdr : List Nat := [1, 0, 0, 0, 2, 0, 0, 0, 0, 0, 0, 0, 100, 0, 0, 0]

/-- Tracker with an open channel and watch descriptor 1 mapped to `/etc`. -/
def c3st : TrackerState := ⟨true, [(1, asciiB "/etc")], [], []⟩

/-- Environment where the inotify channel opens but no directory exists and
every watch registration fails. -/
def c6env : MonitorEnv := ⟨true, fun _ => false, fun _ => -1⟩

/-- Environment where everything succeeds. -/
def c6envOk : MonitorEnv := ⟨true, fun _ => true, fun _ => 1⟩

/-- A fresh `FileChangeTracker` on the default directory list of
`real-time_file_monitor.py` (line 210). -/
def c6tracker : FCTState :=
  ⟨⟨false, [], [], []⟩, [asciiB "/etc", asciiB "/opt/spider", asciiB "/var/log"], false⟩

/-- A fresh `FileChangeMonitor` on the default directory list of
`scanners/inotify_monitor.py` (line 151). -/
def c6mon : FCMState :=
  ⟨⟨false, [], [], []⟩, [asciiB "/etc", asciiB "/home/abidan/spider", asciiB "/var/log"], false⟩

/-- Three ring events spread over a nine-minute span (timestamps 0, 300 and
540 seconds). -/
def c7st : TrackerState :=
  ⟨true, [(1, asciiB "/etc")], [
    ⟨0, asciiB "/etc/a.conf", asciiB "/etc", asciiB "a.conf", ["created"]⟩,
    ⟨300, asciiB "/etc/b.conf", asciiB "/etc", asciiB "b.conf", ["modified"]⟩,
    ⟨540, asciiB "/etc/b.conf", asciiB "/etc", asciiB "b.conf", ["deleted"]⟩], []⟩

/-! ## Claim theorems and helper lemmas -/

lemma foldl_if_find_cursor {α β γ : Type} (c : α → Bool) (g : α → Option γ) (mk : γ → α → β)
    (l : List α) (acc : List β) :
    l.foldl (fun acc a =>
        if c a then (g a).elim acc (fun f => acc ++ [mk f a]) else acc) acc
      = acc ++ l.filterMap (fun a => if c a then (g a).map (fun f => mk f a) else none) := by
  induction l generalizing acc with
  | nil => simp
  | cons x xs ih =>
    by_cases hc : c x
    · cases hgx : g x <;> simp [hc, hgx, ih, List.filterMap_cons]
    · simp [hc, ih, List.filterMap_cons]

lemma add_file_record_ok_shape (db : DB) (now : Int) (path : String) (ft : Option String)
    (sz mt : Option Int) (ch : Option String) (db' : DB) (fid : Nat)
    (h : add_file_record db now path ft sz mt ch = .ok (db', fid)) :
    db'.rels = db.rels ∧ db'.changes = db.changes ∧ ∃ r ∈ db'.files, r.path = path := by
  unfold add_file_record at h
  rcases hf : findFile db path with _ | old <;> rw [hf] at h <;> dsimp only at h
  · simp only [Except.ok.injEq, Prod.mk.injEq] at h
    obtain ⟨hdb, -⟩ := h
    subst hdb
    exact ⟨rfl, rfl, ⟨_, List.mem_append_right _ (List.mem_singleton_self _), rfl⟩⟩
  · by_cases href : fileReferenced db old.id
    · rw [if_pos href] at h
      exact absurd h (by simp)
    · rw [if_neg href] at h
      simp only [Except.ok.injEq, Prod.mk.injEq] at h
      obtain ⟨hdb, -⟩ := h
      subst hdb
      exact ⟨rfl, rfl, ⟨_, List.mem_append_right _ (List.mem_singleton_self _), rfl⟩⟩

/-- Claim C1 (code bug): re-inserting the same `(source, target, kind)` edge
with a different strength does not replace the edge.  The second
`add_file_relationship` call fails with a foreign-key violation (the
`INSERT OR REPLACE` re-upsert of the source file deletes a `files` row that
the existing relationship row references), and the single stored edge keeps
the first strength, not the second. -/
theorem C1_second_identical_edge_upsert_raises_and_keeps_first_strength :
    (add_file_relationship emptyDB 0 "/s" "/t" "ref" 1 none).2 = none ∧
    (add_file_relationship c1db 1 "/s" "/t" "ref" 2 none).2 = some SqlError.fkViolation ∧
    (add_file_relationship c1db 1 "/s" "/t" "ref" 2 none).1.rels.map
        (fun r => (r.source_file_id, r.target_file_id, r.relationship_type, r.strength))
      = [(1, 2, "ref", (1 : Rat))] := by
  decide

/-- Claim C2 (amended): a relationship upsert is not atomic; each of its
three writes commits as its statement executes.  If the source upsert
raises, the store is unchanged; if the target upsert raises, the committed
state is exactly the state after the source upsert — the source file row is
already committed and no edge row was added.  When both endpoint upserts
succeed, the edge insert commits if its two file-id foreign keys still
resolve, and otherwise (the dangling-source self-edge case) fails while the
two endpoint upserts stay committed and no edge is added. -/
theorem C2_relationship_upsert_commits_per_statement
    (db : DB) (now : Int) (src tgt k : String) (st : Rat) (md : Option String) :
    (∀ e, add_file_record db now src none none none none = .error e →
        add_file_relationship db now src tgt k st md = (db, some e)) ∧
    (∀ db1 sid e, add_file_record db now src none none none none = .ok (db1, sid) →
        add_file_record db1 now tgt none none none none = .error e →
        add_file_relationship db now src tgt k st md = (db1, some e) ∧
          db1.rels = db.rels ∧ ∃ r ∈ db1.files, r.path = src) ∧
    (∀ db1 sid db2 tid, add_file_record db now src none none none none = .ok (db1, sid) →
        add_file_record db1 now tgt none none none none = .ok (db2, tid) →
        ((db2.files.any (fun f => f.id == sid) && db2.files.any (fun f => f.id == tid))
            = true →
          add_file_relationship db now src tgt k st md =
            (⟨db2.files, db2.rels ++ [⟨maxRelId db2 + 1, sid, tid, k, st, md, now⟩],
              db2.changes⟩, none)) ∧
        ((db2.files.any (fun f => f.id == sid) && db2.files.any (fun f => f.id == tid))
            = false →
          add_file_relationship db now src tgt k st md = (db2, some .fkViolation) ∧
            db2.rels = db.rels ∧ ∃ r ∈ db2.files, r.path = tgt)) := by
  refine ⟨?_, ?_, ?_⟩
  · intro e h
    simp [add_file_relationship, h]
  · intro db1 sid e h1 h2
    refine ⟨by simp [add_file_relationship, h1, h2], ?_, ?_⟩
    · exact (add_file_record_ok_shape db now src none none none none db1 sid h1).1
    · exact (add_file_record_ok_shape db now src none none none none db1 sid h1).2.2
  · intro db1 sid db2 tid h1 h2
    have s1 := add_file_record_ok_shape db now src none none none none db1 sid h1
    have s2 := add_file_record_ok_shape db1 now tgt none none none none db2 tid h2
    constructor
    · intro hfk
      simp [add_file_relationship, h1, h2, hfk]
    · intro hfk
      exact ⟨by simp [add_file_relationship, h1, h2, hfk], s2.1.trans s1.1, s2.2.2⟩

theorem C2_relationship_upsert_commits_per_statement_witness :
    (add_file_relationship emptyDB 0 "/x" "/y" "k" 1 none).1 = c2db ∧
    add_file_record c2db 1 "/c" none none none none = .ok (c2dbS, 3) ∧
    add_file_record c2dbS 1 "/y" none none none none = .error .fkViolation ∧
    add_file_relationship c2db 1 "/c" "/y" "k2" 1 none = (c2dbS, some .fkViolation) ∧
    add_file_relationship emptyDB 0 "/s" "/s" "self" 1 none
      = (c2selfDb2, some .fkViolation) := by
  refine ⟨by decide, by decide, by decide, ?_, ?_⟩
  · exact ((C2_relationship_upsert_commits_per_statement c2db 1 "/c" "/y" "k2" 1 none).2.1
      c2dbS 3 .fkViolation (by decide) (by decide)).1
  · exact (((C2_relationship_upsert_commits_per_statement emptyDB 0 "/s" "/s" "self" 1
      none).2.2 c2selfDb1 1 c2selfDb2 2 (by decide) (by decide)).2 (by decide)).1

/-- Claim C2 counterexample: the claim "a single upsertRelationship call
either persists all three writes or persists none of them; if the edge
write fails, the two endpoint file rows are not left committed" is false on
the code.  First, starting from a store holding an `/x -> /y` edge, the
call `add_file_relationship "/c" "/y" "k2"` fails (foreign-key violation
while re-upserting `/y`, which the existing edge references), yet the `/c`
file row written by the first statement of the call remains committed, and
no edge was added.  Second, the self-edge call
`add_file_relationship "/s" "/s" "self"` on an empty store fails at the
edge write itself (its source file id dangles after the target upsert
replaced the `/s` row), yet the `/s` endpoint row is left committed. -/
theorem C2_upsert_not_atomic_counterexample :
    (add_file_relationship c2db 1 "/c" "/y" "k2" 1 none).2 = some SqlError.fkViolation ∧
    (add_file_relationship c2db 1 "/c" "/y" "k2" 1 none).1.files.map (fun f => f.path)
        = ["/x", "/y", "/c"] ∧
    (add_file_relationship c2db 1 "/c" "/y" "k2" 1 none).1.rels = c2db.rels ∧
    (add_file_relationship emptyDB 0 "/s" "/s" "self" 1 none).2
        = some SqlError.fkViolation ∧
    (add_file_relationship emptyDB 0 "/s" "/s" "self" 1 none).1.files.map (fun f => f.path)
        = ["/s"] ∧
    (add_file_relationship emptyDB 0 "/s" "/s" "self" 1 none).1.rels = [] := by
  decide

/-- Claim C5 (code bug): upserting a path twice is only an update while no
relationship row references the path's row.  The first conjunct shows the
intended behaviour on an otherwise empty store (one row, latest values, a
fresh rowid).  The remaining conjuncts show the failing input: once `/s`
participates in a relationship, re-adding `/s` raises a foreign-key
violation and the row keeps its original `file_type` instead of the newly
supplied one. -/
theorem C5_file_upsert_update_breaks_once_referenced :
    (((add_file_record emptyDB 0 "/a" none (some 3) none none).toOption.bind
        (fun p => (add_file_record p.1 1 "/a" none (some 4) none none).toOption)).map
        (fun p => (p.1.files.map (fun f => (f.id, f.path, f.size)), p.2)) =
      some ([(2, "/a", some 4)], 2)) ∧
    add_file_record c5db 1 "/s" (some "conf") none none none = .error SqlError.fkViolation ∧
    (c5db.files.filter (fun r => r.path == "/s")).map (fun r => r.file_type) = [""] := by
  decide

/-- Claim C9: `get_file_connections` on a path with no `files` row returns
the structured `{'error': 'file not found'}` result (a value, not an
exception), and on a known path returns the one-hop outgoing and incoming
typed, weighted edge lists resolved through the `files` table. -/
theorem C9_neighbors_not_found_is_structured_result (db : DB) (p : String) :
    ((∀ f ∈ db.files, f.path ≠ p) → get_file_connections db p = .err "file not found") ∧
    (∀ row, findFile db p = some row → get_file_connections db p =
      .ok ⟨p, outgoingOf db row.id, incomingOf db row.id,
        ((outgoingOf db row.id).map (fun e => e.target)
          ++ (incomingOf db row.id).map (fun e => e.source)).foldl setAdd []⟩) := by
  constructor
  · intro h
    have hf : findFile db p = none := by
      apply List.find?_eq_none.mpr
      intro f hfmem
      simpa using h f hfmem
    simp [get_file_connections, hf]
  · intro row hrow
    have hout := foldl_if_find_cursor (fun r : RelRow => r.source_file_id == row.id)
      (fun r => db.files.find? (fun f => f.id == r.target_file_id))
      (fun f r => (⟨f.path, r.relationship_type, r.strength, r.metadata⟩ : EdgeOut)) db.rels []
    have hin := foldl_if_find_cursor (fun r : RelRow => r.target_file_id == row.id)
      (fun r => db.files.find? (fun f => f.id == r.source_file_id))
      (fun f r => (⟨f.path, r.relationship_type, r.strength, r.metadata⟩ : EdgeIn)) db.rels []
    simp only [List.nil_append] at hout hin
    rw [get_file_connections, hrow]
    rw [show outgoingOf db row.id = db.rels.filterMap (fun r =>
        if r.source_file_id == row.id then
          (db.files.find? (fun f => f.id == r.target_file_id)).map
            (fun f => (⟨f.path, r.relationship_type, r.strength, r.metadata⟩ : EdgeOut))
        else none) from rfl]
    rw [show incomingOf db row.id = db.rels.filterMap (fun r =>
        if r.target_file_id == row.id then
          (db.files.find? (fun f => f.id == r.source_file_id)).map
            (fun f => (⟨f.path, r.relationship_type, r.strength, r.metadata⟩ : EdgeIn))
        else none) from rfl]
    rw [← hout, ← hin]

theorem C9_neighbors_not_found_is_structured_result_witness :
    get_file_connections emptyDB "/etc/app.conf" = .err "file not found" ∧
    get_file_connections c2db "/x"
      = .ok ⟨"/x", [⟨"/y", "k", 1, none⟩], [], ["/y"]⟩ := by
  constructor
  · exact (C9_neighbors_not_found_is_structured_result emptyDB "/etc/app.conf").1 (by decide)
  · have hc := (C9_neighbors_not_found_is_structured_result c2db "/x").2
      ⟨1, "/x", "", none, none, 0, none⟩ (by decide)
    rw [hc]
    decide

/-- Claim C10: for a path with no `files` row, `find_connected_files` and
`get_change_timeline` both return the empty list — not an error value — and
a known path with no incident relationship rows (respectively no
`file_changes` rows in the window) also yields the empty list, so the two
situations are indistinguishable from the return value. -/
theorem C10_unknown_path_yields_empty_lists (db : DB) (p : String)
    (kinds : List String) (days now₀ : Int) :
    ((∀ f ∈ db.files, f.path ≠ p) →
        find_connected_files db p kinds = [] ∧ get_change_timeline db now₀ p days = []) ∧
    (∀ row, findFile db p = some row →
        ((∀ r ∈ db.rels, r.source_file_id ≠ row.id ∧ r.target_file_id ≠ row.id) →
            find_connected_files db p kinds = []) ∧
        ((∀ c ∈ db.changes, c.file_id ≠ row.id) → get_change_timeline db now₀ p days = [])) := by
  constructor
  · intro h
    have hf : findFile db p = none := by
      apply List.find?_eq_none.mpr
      intro f hfmem
      simpa using h f hfmem
    constructor
    · simp [find_connected_files, hf]
    · simp [get_change_timeline, hf]
  · intro row hrow
    constructor
    · intro h
      have hraw : ∀ rels : List RelRow,
          (∀ r ∈ rels, r.source_file_id ≠ row.id ∧ r.target_file_id ≠ row.id) →
          ∀ acc : List String, rels.foldl (fun acc r =>
            if (r.source_file_id == row.id || r.target_file_id == row.id)
                && (kinds.isEmpty || kinds.contains r.relationship_type) then
              acc ++ (db.files.filter (fun f =>
                (f.id == r.target_file_id || f.id == r.source_file_id) && f.id != row.id)).map
                (fun f => f.path)
            else acc) acc = acc := by
        intro rels
        induction rels with
        | nil => intro _ acc; rfl
        | cons r rs ih =>
          intro hall acc
          have hr := hall r (by simp)
          have hcond : (r.source_file_id == row.id || r.target_file_id == row.id) = false := by
            simp only [Bool.or_eq_false_iff, beq_eq_false_iff_ne]
            exact ⟨hr.1, hr.2⟩
          simp only [List.foldl_cons, hcond, Bool.false_and, if_false]
          exact ih (fun r hmem => hall r (List.mem_cons_of_mem _ hmem)) acc
      rw [find_connected_files, hrow]
      dsimp only
      rw [hraw db.rels h []]
      rfl
    · intro h
      rw [get_change_timeline, hrow]
      dsimp only
      have hfil : db.changes.filter
          (fun c => c.file_id == row.id && now₀ - days * 24 * 3600 < c.timestamp) = [] := by
        apply List.filter_eq_nil_iff.mpr
        intro c hc
        have := h c hc
        simp [this]
      rw [hfil]
      rfl

/-! ## Watch session: `spider/scanners/inotify_monitor.py`

Strings that originate in raw kernel buffers (file names, directory paths)
are modelled as byte sequences (`List Nat`); the lossy
`decode('utf-8', errors='ignore')` step is elided.  `datetime.now()` at
decode time is one integer parameter per decode pass. -/

theorem C10_unknown_path_yields_empty_lists_witness :
    find_connected_files c2db "/q" [] = [] ∧ get_change_timeline c2db 5 "/q" 7 = [] ∧
    find_connected_files c2db "/x" [] = ["/y"] := by
  refine ⟨?_, ?_, by decide⟩
  · exact ((C10_unknown_path_yields_empty_lists c2db "/q" [] 7 5).1 (by decide)).1
  · exact ((C10_unknown_path_yields_empty_lists c2db "/q" [] 7 5).1 (by decide)).2


/-! ### Decoder lemmas -/

lemma decodeOne_some {w : List (Int × List Nat)} {now : Int} {rem : List Nat}
    {ev : RawEvent} {rem2 : List Nat} (h : decodeOne w now rem = some (ev, rem2)) :
    16 ≤ rem.length ∧ rem2.length ≤ rem.length - 16 ∧
    ∃ mask, ev.event_types = eventTypesOfMask mask := by
  unfold decodeOne at h
  by_cases h16 : (rem.take 16).length = 16
  · rw [if_pos h16] at h
    simp only [Option.some.injEq, Prod.mk.injEq] at h
    obtain ⟨hev, hrem2⟩ := h
    have hlen : 16 ≤ rem.length := by
      simp only [List.length_take] at h16
      omega
    refine ⟨hlen, ?_, ?_⟩
    · rw [← hrem2]
      simp only [List.length_drop]
      omega
    · exact ⟨le32 (((rem.take 16).drop 4).take 4), by rw [← hev]⟩
  · rw [if_neg h16] at h
    exact absurd h (by simp)

lemma decodeOne_append (w : List (Int × List Nat)) (now : Int) (hdr extra : List Nat)
    (h16 : hdr.length = 16) :
    decodeOne w now (hdr ++ extra)
      = some (decodedEvent w now hdr extra, extra.drop (le32 ((hdr.drop 12).take 4))) := by
  have ht : (hdr ++ extra).take 16 = hdr := by
    rw [← h16]
    exact List.take_left hdr extra
  have hd : (hdr ++ extra).drop 16 = extra := by
    rw [← h16]
    exact List.drop_left hdr extra
  unfold decodeOne decodedEvent
  rw [if_pos (by rw [ht, h16])]
  rw [ht, hd]

lemma decodeLoop_step (w : List (Int × List Nat)) (now : Int) (fuel : Nat)
    (rem : List Nat) (hne : rem ≠ []) :
    decodeLoop w now (fuel + 1) rem
      = match decodeOne w now rem with
        | some p => ((p.1 :: (decodeLoop w now fuel p.2).1), (decodeLoop w now fuel p.2).2)
        | none => ([], false) := by
  cases rem with
  | nil => exact absurd rfl hne
  | cons b tl =>
    show (match decodeOne w now (b :: tl) with
      | some (ev, rem2) =>
        ((ev :: (decodeLoop w now fuel rem2).1), (decodeLoop w now fuel rem2).2)
      | none => ([], false)) = _
    cases hone : decodeOne w now (b :: tl) with
    | none => rfl
    | some p => cases p with | mk ev rem2 => rfl

lemma decodeLoop_len_types (w : List (Int × List Nat)) (now : Int) :
    ∀ (fuel : Nat) (rem : List Nat), rem.length ≤ fuel →
      (decodeLoop w now fuel rem).1.length ≤ rem.length / 16 ∧
      ∀ e ∈ (decodeLoop w now fuel rem).1, ∃ mask, e.event_types = eventTypesOfMask mask := by
  intro fuel
  induction fuel with
  | zero =>
    intro rem h
    have hnil : rem = [] := List.eq_nil_of_length_eq_zero (Nat.le_zero.mp h)
    subst hnil
    simp [decodeLoop]
  | succ n ih =>
    intro rem hlen
    cases rem with
    | nil => simp [decodeLoop]
    | cons b tl =>
      rw [decodeLoop_step w now n (b :: tl) (by simp)]
      cases hone : decodeOne w now (b :: tl) with
      | none => simp
      | some p =>
        obtain ⟨h16, hcons, mask, hmask⟩ := decodeOne_some hone
        have hrec := ih p.2 (by simp only [List.length_cons] at hlen h16 hcons ⊢; omega)
        constructor
        · have h1 : (decodeLoop w now n p.2).1.length ≤ ((b :: tl).length - 16) / 16 :=
            le_trans hrec.1 (Nat.div_le_div_right hcons)
          have h2 : ((b :: tl).length - 16) / 16 + 1 = (b :: tl).length / 16 := by
            rw [← Nat.add_div_right _ (by norm_num : 0 < 16), Nat.sub_add_cancel h16]
          simp only [List.length_cons] at h2 ⊢
          simp only [List.length_cons] at h1
          omega
        · intro e he
          rcases List.mem_cons.mp he with rfl | htail
          · exact ⟨mask, hmask⟩
          · exact hrec.2 e htail

lemma eventTypes_all_zero (mask : Nat) :
    ∀ (l : List (Nat × String)), (∀ p ∈ l, mask &&& p.1 = 0) →
      ∀ acc : List String,
        l.foldl (fun acc p => if mask &&& p.1 != 0 then acc ++ [p.2] else acc) acc = acc := by
  intro l
  induction l with
  | nil => intro _ acc; rfl
  | cons q qs ih =>
    intro hall acc
    have hq : mask &&& q.1 = 0 := hall q (by simp)
    simp only [List.foldl_cons, hq]
    simpa using ih (fun p hp => hall p (List.mem_cons_of_mem _ hp)) acc

lemma eventTypesOfMask_ne_nil {mask : Nat} (h : eventTypesOfMask mask ≠ []) :
    ∃ p ∈ EVENT_NAMES, mask &&& p.1 ≠ 0 := by
  by_contra hall
  push_neg at hall
  exact h (eventTypes_all_zero mask EVENT_NAMES hall [])

/-- Claim C4: one decode pass never returns more events than the buffer has
complete 16-byte headers, and a returned event's change-kind list is
non-empty only if the record's bitmask shares a bit with the `EVENT_NAMES`
vocabulary (the event's kinds are the translation of that bitmask). -/
theorem C4_decode_bound_and_mask_soundness
    (st : TrackerState) (ready : Bool) (data : List Nat) (now : Int) :
    (read_pending_events st ready data now).1.length ≤ data.length / 16 ∧
    ∀ e ∈ (read_pending_events st ready data now).1, e.event_types ≠ [] →
      ∃ mask, e.event_types = eventTypesOfMask mask ∧ ∃ p ∈ EVENT_NAMES, mask &&& p.1 ≠ 0 := by
  unfold read_pending_events
  by_cases hfd : st.fdOpen
  · by_cases hready : ready
    · simp only [hfd, hready, Bool.not_true, Bool.false_eq_true, if_false]
      have hmain := decodeLoop_len_types st.watches now data.length data (le_refl _)
      by_cases hok : (decodeRecords st.watches now data).2
      · rw [if_pos hok]
        refine ⟨hmain.1, ?_⟩
        intro e he hne
        obtain ⟨mask, hmask⟩ := hmain.2 e he
        exact ⟨mask, hmask, eventTypesOfMask_ne_nil (hmask ▸ hne)⟩
      · rw [if_neg hok]
        simp
    · simp [hfd, hready]
  · simp [hfd]

theorem C4_decode_bound_and_mask_soundness_witness :
    (read_pending_events c3st true c3good 0).1.length ≤ c3good.length / 16 ∧
    (∃ mask, ["created"] = eventTypesOfMask mask ∧ ∃ p ∈ EVENT_NAMES, mask &&& p.1 ≠ 0) := by
  have h := C4_decode_bound_and_mask_soundness c3st true c3good 0
  refine ⟨h.1, ?_⟩
  have h2 := h.2 ⟨0, asciiB "/etc", asciiB "/etc", [], ["created"]⟩ (by decide) (by decide)
  simpa using h2

/-- Claim C3 (amended): the decoder does not skip a malformed record.  A
record whose declared name length overruns the buffer is emitted with the
name truncated to the bytes actually present, and the pass ends there (any
bytes inside the declared name span are consumed, so nothing after the
overrunning record is decoded).  A buffer that ends in a truncated fixed
header (1 to 15 trailing bytes) aborts the pass: the call returns the empty
list, discarding even the earlier well-formed records from its return value
(they are retained in the ring and counters, which this model also
records). -/
theorem C3_malformed_records_not_skipped
    (st : TrackerState) (now : Int) (hdr extra : List Nat)
    (hfd : st.fdOpen = true) (h16 : hdr.length = 16) :
    (extra.length < le32 ((hdr.drop 12).take 4) →
      (read_pending_events st true (hdr ++ extra) now).1
        = [overrunEvent st.watches hdr extra now]) ∧
    (le32 ((hdr.drop 12).take 4) = 0 → extra ≠ [] → extra.length < 16 →
      (read_pending_events st true (hdr ++ extra) now).1 = [] ∧
      (read_pending_events st true hdr now).1
        = [⟨now, (lookupWatch st.watches (toInt32 (le32 (hdr.take 4)))).getD (asciiB "unknown"),
            (lookupWatch st.watches (toInt32 (le32 (hdr.take 4)))).getD (asciiB "unknown"), [],
            eventTypesOfMask (le32 ((hdr.drop 4).take 4))⟩]) := by
  have hread : ∀ data : List Nat, (read_pending_events st true data now).1
      = (if (decodeRecords st.watches now data).2 then (decodeRecords st.watches now data).1
         else []) := by
    intro data
    unfold read_pending_events
    simp [hfd]
  have hlen : ∀ extra' : List Nat, (hdr ++ extra').length = (15 + extra'.length) + 1 := by
    intro extra'
    rw [List.length_append, h16]
    omega
  have hne2 : hdr ++ extra ≠ [] := by
    cases hdr with
    | nil => simp at h16
    | cons a t => simp
  have hneh : hdr ≠ [] := by
    cases hdr with
    | nil => simp at h16
    | cons a t => simp
  constructor
  · intro hover
    have htake : extra.take (le32 ((hdr.drop 12).take 4)) = extra :=
      List.take_of_length_le (le_of_lt hover)
    have hdrop : extra.drop (le32 ((hdr.drop 12).take 4)) = [] :=
      List.drop_eq_nil_of_le (le_of_lt hover)
    have hpos : 0 < le32 ((hdr.drop 12).take 4) := by omega
    rw [hread]
    unfold decodeRecords
    rw [hlen extra, decodeLoop_step _ _ _ _ hne2]
    rw [decodeOne_append st.watches now hdr extra h16]
    rw [hdrop]
    simp [decodeLoop, decodedEvent, overrunEvent, htake, hpos]
  · intro hzero hne hshort
    constructor
    · rw [hread]
      unfold decodeRecords
      rw [hlen extra, decodeLoop_step _ _ _ _ hne2]
      rw [decodeOne_append st.watches now hdr extra h16, hzero]
      simp only [List.drop_zero]
      rw [show (15 + extra.length : Nat) = (14 + extra.length) + 1 from by omega]
      rw [decodeLoop_step _ _ _ _ hne]
      have hnone : decodeOne st.watches now extra = none := by
        unfold decodeOne
        rw [if_neg]
        simp only [List.length_take]
        omega
      rw [hnone]
      simp
    · rw [hread]
      unfold decodeRecords
      have hone := decodeOne_append st.watches now hdr [] h16
      rw [List.append_nil] at hone
      rw [show hdr.length = 15 + 1 from by omega]
      rw [decodeLoop_step _ _ _ _ hneh]
      rw [hone, hzero]
      simp [decodeLoop, decodedEvent, hzero]

theorem C3_malformed_records_not_skipped_witness :
    (read_pending_events c3st true (c3overHdr ++ asciiB "ab") 0).1
      = [⟨0, asciiB "/etc/ab", asciiB "/etc", asciiB "ab", ["modified"]⟩] ∧
    (read_pending_events c3st true (c3good ++ [7]) 0).1 = [] ∧
    (read_pending_events c3st true c3good 0).1
      = [⟨0, asciiB "/etc", asciiB "/etc", [], ["created"]⟩] := by
  have hA := (C3_malformed_records_not_skipped c3st 0 c3overHdr (asciiB "ab")
    rfl (by decide)).1 (by decide)
  have hB := (C3_malformed_records_not_skipped c3st 0 c3good [7]
    rfl (by decide)).2 (by decide) (by decide) (by decide)
  exact ⟨hA.trans (by decide), hB.1, hB.2.trans (by decide)⟩

/-- Claim C3 counterexample: the claim says a malformed trailing record
never makes the decoder discard the whole batch, and that the well-formed
records decoded earlier in the buffer are still returned.  On the code, a
well-formed record followed by a truncated 8-byte header makes the pass
return the empty list, although the same well-formed record alone decodes to
one event. -/
theorem C3_batch_discard_counterexample :
    (read_pending_events c3st true (c3good ++ [0, 0, 0, 0, 0, 0, 0, 0]) 0).1 = [] ∧
    (read_pending_events c3st true c3good 0).1
      = [⟨0, asciiB "/etc", asciiB "/etc", [], ["created"]⟩] := by
  decide

/-! ### Watch-session lemmas -/

lemma watchRegLoop_count (env : MonitorEnv) :
    ∀ (dirs : List (List Nat)) (tr : TrackerState) (c : Nat), tr.fdOpen = true →
      (watchRegLoop env dirs tr c).2
        = c + (dirs.filter
            (fun d => env.dirExists d && decide (0 ≤ env.addWatchRes d))).length := by
  intro dirs
  induction dirs with
  | nil =>
    intro tr c h
    simp [watchRegLoop]
  | cons d rest ih =>
    intro tr c htr
    by_cases hex : env.dirExists d
    · by_cases hw : 0 ≤ env.addWatchRes d
      · have hady : add_directory_watch env tr d
            = (⟨tr.fdOpen, dictInsert tr.watches (env.addWatchRes d) d, tr.events, tr.stats⟩,
               some (env.addWatchRes d)) := by
          unfold add_directory_watch
          rw [if_neg (by simp [htr, hex]), if_pos hw]
        simp only [watchRegLoop, hex, if_true, hady, Option.isSome_some]
        rw [ih ⟨tr.fdOpen, dictInsert tr.watches (env.addWatchRes d) d, tr.events, tr.stats⟩
          (c + 1) htr]
        have hcond : (env.dirExists d && decide (0 ≤ env.addWatchRes d)) = true := by
          simp [hex, hw]
        simp only [List.filter_cons, hcond, if_true, List.length_cons]
        omega
      · have hady : add_directory_watch env tr d = (tr, none) := by
          unfold add_directory_watch
          rw [if_neg (by simp [htr, hex]), if_neg hw]
        simp only [watchRegLoop, hex, if_true, hady, Option.isSome_none]
        rw [ih _ _ htr]
        simp [List.filter_cons, hex, hw]
    · simp only [watchRegLoop, hex, Bool.false_eq_true, if_false]
      rw [ih _ _ htr]
      simp [List.filter_cons, hex]

/-- Claim C6 (amended): the scanners implementation behaves as the claim
says — `FileChangeMonitor.start_monitoring` returns `true` exactly when the
inotify channel opened and at least one configured directory exists and
registers (non-existent directories are skipped silently) — but the
`real-time_file_monitor.py` copy does not: `FileChangeTracker.start_tracking`
returns `true` whenever the channel opens, even when no directory watch was
registered. -/
theorem C6_start_marks_active_only_with_watches
    (env : MonitorEnv) (m : FCMState) (t : FCTState) :
    ((start_monitoring env m).2 = true ↔
      env.initOk = true ∧
        ∃ d ∈ m.watch_dirs, env.dirExists d = true ∧ 0 ≤ env.addWatchRes d) ∧
    (start_tracking env t).2 = env.initOk := by
  constructor
  · unfold start_monitoring
    by_cases hinit : env.initOk
    · have hini : initInotify env m.tracker
          = (⟨true, m.tracker.watches, m.tracker.events, m.tracker.stats⟩, true) := by
        unfold initInotify
        rw [if_pos hinit]
      rw [hini]
      simp only [Bool.not_true, Bool.false_eq_true, if_false]
      rw [watchRegLoop_count env m.watch_dirs _ 0 rfl]
      have hiff : 0 < (m.watch_dirs.filter
            (fun d => env.dirExists d && decide (0 ≤ env.addWatchRes d))).length ↔
          ∃ d ∈ m.watch_dirs, env.dirExists d = true ∧ 0 ≤ env.addWatchRes d := by
        constructor
        · intro h
          obtain ⟨x, hx⟩ := List.exists_mem_of_length_pos h
          have hmem := List.mem_filter.mp hx
          refine ⟨x, hmem.1, ?_, ?_⟩
          · have := hmem.2
            simp only [Bool.and_eq_true, decide_eq_true_eq] at this
            exact this.1
          · have := hmem.2
            simp only [Bool.and_eq_true, decide_eq_true_eq] at this
            exact this.2
        · rintro ⟨d, hd, h1, h2⟩
          apply List.length_pos.mpr
          intro hnil
          have hmem : d ∈ m.watch_dirs.filter
              (fun d => env.dirExists d && decide (0 ≤ env.addWatchRes d)) :=
            List.mem_filter.mpr ⟨hd, by simp [h1, h2]⟩
          rw [hnil] at hmem
          simp at hmem
      by_cases hpos : 0 < 0 + (m.watch_dirs.filter
          (fun d => env.dirExists d && decide (0 ≤ env.addWatchRes d))).length
      · rw [if_pos hpos]
        constructor
        · intro
          exact ⟨hinit, hiff.mp (by simpa using hpos)⟩
        · intro
          rfl
      · rw [if_neg hpos]
        constructor
        · intro hcontra
          exact absurd hcontra (by simp)
        · rintro ⟨-, hex⟩
          exact absurd (by simpa using hiff.mpr hex) hpos
    · have hini : initInotify env m.tracker = (m.tracker, false) := by
        unfold initInotify
        rw [if_neg hinit]
      rw [hini]
      simp [hinit]
  · unfold start_tracking rt_start_monitoring
    by_cases hinit : env.initOk
    · rw [if_pos hinit]
      simp [hinit]
    · rw [if_neg hinit]
      simp only [Bool.not_false, if_true]
      simp [Bool.not_eq_true] at hinit
      rw [hinit]

theorem C6_start_marks_active_only_with_watches_witness :
    (start_monitoring c6envOk c6mon).2 = true ∧
    (start_tracking c6env c6tracker).2 = true := by
  constructor
  · exact (C6_start_marks_active_only_with_watches c6envOk c6mon c6tracker).1.mpr
      ⟨rfl, asciiB "/etc", by decide, rfl, by decide⟩
  · exact ((C6_start_marks_active_only_with_watches c6env c6mon c6tracker).2).trans (by decide)

/-- Claim C6 counterexample: the claim says `start` marks the session active
only if at least one directory watch registered.  On the
`real-time_file_monitor.py` implementation, with an environment where the
channel opens but no directory exists (so no watch can register),
`start_tracking` still returns `true` and leaves the watch table empty. -/
theorem C6_active_without_any_watch_counterexample :
    (start_tracking c6env c6tracker).2 = true ∧
    (start_tracking c6env c6tracker).1.monitor.watches = [] ∧
    (start_tracking c6env c6tracker).1.running = true := by
  decide

/-! ### Windowed-summary lemmas -/

lemma foldl_ite_append {α : Type} (p : α → Prop) [DecidablePred p] :
    ∀ (l : List α) (acc : List α),
      l.foldl (fun acc e => if p e then acc ++ [e] else acc) acc
        = acc ++ l.filter (fun e => decide (p e)) := by
  intro l
  induction l with
  | nil =>
    intro acc
    simp
  | cons x xs ih =>
    intro acc
    by_cases hx : p x
    · simp [List.foldl_cons, hx, ih, List.filter_cons]
    · simp [List.foldl_cons, hx, ih, List.filter_cons]

lemma get_recent_events_eq (st : TrackerState) (now minutes : Int) :
    get_recent_events st now minutes
      = st.events.filter (fun e => decide (now - minutes * 60 ≤ e.timestamp)) := by
  unfold get_recent_events
  rw [foldl_ite_append (fun e : RawEvent => now - minutes * 60 ≤ e.timestamp)]
  simp

lemma mem_setAdd {α : Type} [BEq α] [LawfulBEq α] (l : List α) (b a : α) :
    a ∈ setAdd l b ↔ a ∈ l ∨ a = b := by
  unfold setAdd
  by_cases hb : l.contains b = true
  · rw [if_pos hb]
    constructor
    · exact Or.inl
    · rintro (h | rfl)
      · exact h
      · exact List.elem_iff.mp hb
  · rw [if_neg hb]
    rw [List.mem_append, List.mem_singleton]

lemma mem_foldl_setAdd {α β : Type} [BEq α] [LawfulBEq α] (f : β → α) :
    ∀ (l : List β) (acc : List α) (a : α),
      a ∈ l.foldl (fun s e => setAdd s (f e)) acc ↔ a ∈ acc ∨ ∃ e ∈ l, f e = a := by
  intro l
  induction l with
  | nil =>
    intro acc a
    simp
  | cons x xs ih =>
    intro acc a
    simp only [List.foldl_cons]
    rw [ih]
    rw [mem_setAdd]
    constructor
    · rintro ((h | rfl) | ⟨e, he, hfe⟩)
      · exact Or.inl h
      · exact Or.inr ⟨x, by simp, rfl⟩
      · exact Or.inr ⟨e, by simp [he], hfe⟩
    · rintro (h | ⟨e, he, hfe⟩)
      · exact Or.inl (Or.inl h)
      · rcases List.mem_cons.mp he with rfl | htail
        · exact Or.inl (Or.inr hfe.symm)
        · exact Or.inr ⟨e, htail, hfe⟩

lemma foldl_summaryStep_proj (evs : List RawEvent) :
    ∀ s : ChangeSummary,
      (evs.foldl summaryStep s).total_events = s.total_events ∧
      (evs.foldl summaryStep s).files_changed
        = evs.foldl (fun l e => setAdd l e.path) s.files_changed ∧
      (evs.foldl summaryStep s).directories_affected
        = evs.foldl (fun l e => setAdd l e.directory) s.directories_affected := by
  induction evs with
  | nil => intro s; exact ⟨rfl, rfl, rfl⟩
  | cons e es ih =>
    intro s
    simp only [List.foldl_cons]
    exact ih (summaryStep s e)

lemma foldl_summaryStep_recent_le (evs : List RawEvent) :
    ∀ s : ChangeSummary,
      (evs.foldl summaryStep s).recent_changes.length ≤ max s.recent_changes.length 10 := by
  induction evs with
  | nil =>
    intro s
    simp
  | cons e es ih =>
    intro s
    simp only [List.foldl_cons]
    refine le_trans (ih (summaryStep s e)) ?_
    have hstep : (summaryStep s e).recent_changes
        = if s.recent_changes.length < 10 then
            s.recent_changes ++ [⟨e.timestamp, e.path, e.event_types⟩]
          else s.recent_changes := rfl
    rw [hstep]
    by_cases h : s.recent_changes.length < 10
    · rw [if_pos h]
      simp only [List.length_append, List.length_cons, List.length_nil]
      omega
    · rw [if_neg h]

/-- Claim C7: the windowed summary aggregates exactly the retained ring
events whose timestamp lies within the trailing window: `total_events` is
their count, `files_changed` and `directories_affected` are exactly the sets
of their paths and directories, and the `recent_changes` sample holds at
most 10 entries. -/
theorem C7_windowed_summary_correctness (st : TrackerState) (now minutes : Int) :
    (get_change_summary st now minutes).total_events
        = (st.events.filter (fun e => decide (now - minutes * 60 ≤ e.timestamp))).length ∧
    (∀ p, p ∈ (get_change_summary st now minutes).files_changed ↔
        ∃ e ∈ st.events.filter (fun e => decide (now - minutes * 60 ≤ e.timestamp)),
          e.path = p) ∧
    (∀ d, d ∈ (get_change_summary st now minutes).directories_affected ↔
        ∃ e ∈ st.events.filter (fun e => decide (now - minutes * 60 ≤ e.timestamp)),
          e.directory = d) ∧
    (get_change_summary st now minutes).recent_changes.length ≤ 10 := by
  have hgs : get_change_summary st now minutes
      = (st.events.filter (fun e => decide (now - minutes * 60 ≤ e.timestamp))).foldl
          summaryStep
          ⟨minutes,
            (st.events.filter (fun e => decide (now - minutes * 60 ≤ e.timestamp))).length,
            [], [], [], []⟩ := by
    unfold get_change_summary
    rw [get_recent_events_eq]
  obtain ⟨htot, hfc, hda⟩ := foldl_summaryStep_proj
    (st.events.filter (fun e => decide (now - minutes * 60 ≤ e.timestamp)))
    ⟨minutes, (st.events.filter (fun e => decide (now - minutes * 60 ≤ e.timestamp))).length,
      [], [], [], []⟩
  refine ⟨?_, ?_, ?_, ?_⟩
  · rw [hgs, htot]
  · intro p
    rw [hgs, hfc, mem_foldl_setAdd]
    simp
  · intro d
    rw [hgs, hda, mem_foldl_setAdd]
    simp
  · rw [hgs]
    refine le_trans (foldl_summaryStep_recent_le _ _) ?_
    simp

theorem C7_windowed_summary_correctness_witness :
    (get_change_summary c7st 600 5).total_events = 2 ∧
    asciiB "/etc/b.conf" ∈ (get_change_summary c7st 600 5).files_changed ∧
    (get_change_summary c7st 600 5).recent_changes.length ≤ 10 := by
  have h := C7_windowed_summary_correctness c7st 600 5
  refine ⟨?_, ?_, h.2.2.2⟩
  · rw [h.1]
    decide
  · exact (h.2.1 (asciiB "/etc/b.conf")).mpr
      ⟨⟨300, asciiB "/etc/b.conf", asciiB "/etc", asciiB "b.conf", ["modified"]⟩, by decide, rfl⟩

/-! ### Extractor lemmas -/

lemma mem_foldl_setAdd_id {α : Type} [BEq α] [LawfulBEq α] :
    ∀ (l acc : List α) (a : α), a ∈ l.foldl setAdd acc ↔ a ∈ acc ∨ a ∈ l := by
  intro l
  induction l with
  | nil =>
    intro acc a
    simp
  | cons x xs ih =>
    intro acc a
    simp only [List.foldl_cons]
    rw [ih, mem_setAdd]
    simp only [List.mem_cons]
    tauto

lemma mem_refs_fold (refs : List (String × List String)) :
    ∀ (acc : List String) (p : String),
      p ∈ refs.foldl (fun acc r => r.2.foldl setAdd acc) acc
        ↔ p ∈ acc ∨ ∃ r ∈ refs, p ∈ r.2 := by
  induction refs with
  | nil =>
    intro acc p
    simp
  | cons r rs ih =>
    intro acc p
    simp only [List.foldl_cons]
    rw [ih, mem_foldl_setAdd_id]
    simp only [List.mem_cons]
    constructor
    · rintro ((h | h) | ⟨q, hq, hp⟩)
      · exact Or.inl h
      · exact Or.inr ⟨r, Or.inl rfl, h⟩
      · exact Or.inr ⟨q, Or.inr hq, hp⟩
    · rintro (h | ⟨q, hq | hq, hp⟩)
      · exact Or.inl (Or.inl h)
      · exact Or.inl (Or.inr (hq ▸ hp))
      · exact Or.inr ⟨q, hq, hp⟩

lemma mem_collectReferenced (conns : List (String × ConnData)) (p : String) :
    p ∈ collectReferenced conns ↔ ∃ c ∈ conns, ∃ r ∈ c.2.references, p ∈ r.2 := by
  unfold collectReferenced
  suffices h : ∀ (cs : List (String × ConnData)) (acc : List String),
      p ∈ cs.foldl (fun acc c => c.2.references.foldl (fun acc r => r.2.foldl setAdd acc) acc) acc
        ↔ p ∈ acc ∨ ∃ c ∈ cs, ∃ r ∈ c.2.references, p ∈ r.2 by
    rw [h conns []]
    simp
  intro cs
  induction cs with
  | nil =>
    intro acc
    simp
  | cons c rest ih =>
    intro acc
    simp only [List.foldl_cons]
    rw [ih, mem_refs_fold]
    simp only [List.mem_cons]
    constructor
    · rintro ((h | ⟨r, hr, hp⟩) | ⟨q, hq, hrest⟩)
      · exact Or.inl h
      · exact Or.inr ⟨c, Or.inl rfl, r, hr, hp⟩
      · exact Or.inr ⟨q, Or.inr hq, hrest⟩
    · rintro (h | ⟨q, hq | hq, hrest⟩)
      · exact Or.inl (Or.inl h)
      · exact Or.inl (Or.inr (hq ▸ hrest))
      · exact Or.inr ⟨q, hq, hrest⟩

/-- Claim C8: a file is listed under `orphaned_files` only if it never
occurs as a target in any reference list of the scan's `connections`, and
the orphan sample holds at most 20 entries — for every filesystem, directory
and budget.  In the spec's two-file scenario (`app.conf` holding
`include "db.conf"`, `db.conf` empty), the scan records exactly one
connection entry, for `app.conf`, of the `include` (config-include) kind
targeting `/d/db.conf`; `db.conf` is not orphaned (it is a target) and
`app.conf` is (nothing references it). -/
theorem C8_orphans_are_never_targets :
    (∀ (fs : FS) (dir : String) (mf : Nat),
      (∀ f ∈ (scan_directory fs dir mf).orphaned_files,
        ∀ c ∈ (scan_directory fs dir mf).connections,
          ∀ r ∈ c.2.references, f ∉ r.2) ∧
      (scan_directory fs dir mf).orphaned_files.length ≤ 20) ∧
    (scan_directory c8fs "/d" 1000).connections
        = [("/d/app.conf", ⟨18, 7, [("include", ["/d/db.conf"])]⟩)] ∧
    (scan_directory c8fs "/d" 1000).orphaned_files = ["/d/app.conf"] ∧
    (scan_directory c8fs "/d" 1000).files_scanned = 2 := by
  refine ⟨?_, by decide, by decide, by decide⟩
  intro fs dir mf
  have horph : (scan_directory fs dir mf).orphaned_files
      = ((((collectScanned fs mf).foldl setAdd []).filter
          (fun f => !(collectReferenced (scan_directory fs dir mf).connections).contains f)).take
        20) := rfl
  constructor
  · intro f hf c hc r hr hmem
    rw [horph] at hf
    have hf2 := List.mem_of_mem_take hf
    have hp := (List.mem_filter.mp hf2).2
    have hin : f ∈ collectReferenced (scan_directory fs dir mf).connections :=
      (mem_collectReferenced _ f).mpr ⟨c, hc, r, hr, hmem⟩
    rw [Bool.not_eq_true', ← Bool.not_eq_true] at hp
    exact hp (List.elem_iff.mpr hin)
  · rw [horph]
    exact List.length_take_le 20 _

theorem C8_orphans_are_never_targets_witness :
    (scan_directory c8fs "/d" 1000).orphaned_files.length ≤ 20 ∧
    "/d/app.conf" ∉ ["/d/db.conf"] := by
  have h := C8_orphans_are_never_targets.1 c8fs "/d" 1000
  refine ⟨h.2, ?_⟩
  exact h.1 "/d/app.conf" (by decide)
    ("/d/app.conf", ⟨18, 7, [("include", ["/d/db.conf"])]⟩) (by decide)
    ("include", ["/d/db.conf"]) (by decide)

end Spider
